import Mathlib

/-!
Shallow embedding of the trip-spawning pipeline of `sim/src/make/spawner.rs`
(the `TripSpec` / `TripSpawner` module of the abstreet traffic simulator).

Distances and speeds are modelled as exact rationals; lane, building,
intersection, bus-stop, route, person and vehicle identifiers as naturals.
The map/network, a read-only collaborator, is a structure of lookup
functions.  Rust panics are modelled by returning `none`.
-/

namespace Spawner

/-- A location on the network: a lane identifier plus a distance along it
(`map_model::Position`). -/
structure Position where
  lane : Nat
  distAlong : ℚ
deriving DecidableEq, Repr

/-- Why a sidewalk point is reachable (`SidewalkPOI`). -/
inductive SidewalkPOI where
  | Building (b : Nat)
  | Border (i : Nat)
  | BusStop (s : Nat)
  | SuddenlyAppear
  | BikeRack
  | ParkingSpot
  | DeferredParkingSpot
deriving DecidableEq, Repr

/-- A pedestrian-reachable location: a sidewalk position tagged with its
connection kind (`SidewalkSpot`). -/
structure SidewalkSpot where
  sidewalk_pos : Position
  connection : SidewalkPOI
deriving DecidableEq, Repr

/-- A vehicular destination (`DrivingGoal`). -/
inductive DrivingGoal where
  | ParkNear (b : Nat)
  | Border (i : Nat) (lane : Nat)
deriving DecidableEq, Repr

/-- Vehicle classes (`VehicleType`). -/
inductive VehicleType where
  | Car
  | Bike
  | Bus
deriving DecidableEq, Repr

/-- Routing mode constraints (`map_model::PathConstraints`). -/
inductive PathConstraints where
  | Pedestrian
  | Car
  | Bike
  | Bus
deriving DecidableEq, Repr

/-- A vehicle template: its type and physical length (`VehicleSpec`). -/
structure VehicleSpec where
  vehicle_type : VehicleType
  length : ℚ
deriving DecidableEq, Repr

/-- A concrete vehicle instance produced by `VehicleSpec::make`. -/
structure Vehicle where
  id : Nat
  owner : Option Nat
  vspec : VehicleSpec
deriving DecidableEq, Repr

/-- `VehicleSpec::make(id, owner)`: instantiate the template. -/
def VehicleSpec.make (vs : VehicleSpec) (id : Nat) (owner : Option Nat) : Vehicle :=
  ⟨id, owner, vs⟩

/-- A routing query (`PathRequest`). -/
structure PathRequest where
  start : Position
  end_ : Position
  constraints : PathConstraints
deriving DecidableEq, Repr

/-- The travel-intent tagged union (`TripSpec`). -/
inductive TripSpec where
  | CarAppearing (start_pos : Position) (goal : DrivingGoal)
      (vehicle_spec : VehicleSpec) (ped_speed : ℚ)
  | UsingParkedCar (start_bldg : Nat) (goal : DrivingGoal) (ped_speed : ℚ)
  | JustWalking (start : SidewalkSpot) (goal : SidewalkSpot) (ped_speed : ℚ)
  | UsingBike (start : SidewalkSpot) (goal : DrivingGoal)
      (vehicle : VehicleSpec) (ped_speed : ℚ)
  | UsingTransit (start : SidewalkSpot) (goal : SidewalkSpot)
      (route : Nat) (stop1 : Nat) (stop2 : Nat) (ped_speed : ℚ)
deriving DecidableEq, Repr

/-- Modelled from the spec: `geom::EPSILON_DIST`, the minimal distance
quantum (0.01 m in the upstream codebase); the constant itself is imported
from outside this module. -/
def EPSILON_DIST : ℚ := 1 / 100

/-- Modelled from the spec: `sim::BIKE_LENGTH` (1.8 m upstream), imported
from outside this module. -/
def BIKE_LENGTH : ℚ := 9 / 5

/-- Modelled from the spec: `sim::MAX_CAR_LENGTH` (6.5 m upstream),
imported from outside this module. -/
def MAX_CAR_LENGTH : ℚ := 13 / 2

/-- Modelled from the spec: the routing mode constraint derived from a
vehicle type (`VehicleType::to_constraints`, spec 4.3). -/
def VehicleType.to_constraints : VehicleType → PathConstraints
  | .Car => .Car
  | .Bike => .Bike
  | .Bus => .Bus

/-- The read-only network collaborator, as the interface of lookups the
spawner consumes (spec section 6): lane geometry, sidewalk adjacency,
bike racks, bus stops, parking and pathfinding.  Resolved paths are kept
opaque (`Nat`). -/
structure Map where
  laneLength : Nat → ℚ
  laneSrcI : Nat → Nat
  bldgSidewalkLane : Nat → Nat
  buildingSpot : Nat → SidewalkSpot
  bikeFromBikeRack : Nat → Option SidewalkSpot
  bikeToSidewalk : Nat → Option Nat
  busStopSpot : Nat → SidewalkSpot
  deferredParkingSpot : Nat → DrivingGoal → SidewalkSpot
  goalPos : PathConstraints → DrivingGoal → Position
  pathfind : PathRequest → Option Nat

/-- One buffered trip: `(person, start_time, spec)`. -/
abbrev Entry := Nat × ℚ × TripSpec

/-- `TripSpec::spawn_vehicle_at`: fix up a desired spawn position for the
given vehicle class, or report that the lane is hopelessly short. -/
def spawn_vehicle_at (m : Map) (pos : Position) (isBike : Bool) : Option Position :=
  let lane_len := m.laneLength pos.lane
  let vehicle_len := if isBike then BIKE_LENGTH else MAX_CAR_LENGTH
  if lane_len ≤ vehicle_len then
    none
  else if pos.distAlong < vehicle_len then
    some ⟨pos.lane, vehicle_len⟩
  else if pos.distAlong = lane_len then
    some ⟨pos.lane, pos.distAlong - EPSILON_DIST⟩
  else
    some pos

/-- `TripSpawner::schedule_trip`: validate one intent against the map and
append it (possibly rewritten) to the buffer.  `none` models a Rust panic;
`some` returns the updated buffer (unchanged when the intent is silently
dropped). -/
def schedule_trip (m : Map) (person : Nat) (start_time : ℚ) (spec : TripSpec)
    (trips : List Entry) : Option (List Entry) :=
  match spec with
  | .CarAppearing start_pos goal vehicle_spec _ =>
    if start_pos.distAlong < vehicle_spec.length then
      none
    else if m.laneLength start_pos.lane ≤ start_pos.distAlong then
      none
    else
      match goal with
      | .Border _ end_lane =>
        if start_pos.lane = end_lane ∧ start_pos.distAlong = m.laneLength end_lane then
          none
        else
          some (trips ++ [(person, start_time, spec)])
      | .ParkNear _ => some (trips ++ [(person, start_time, spec)])
  | .UsingParkedCar _ _ _ => some (trips ++ [(person, start_time, spec)])
  | .JustWalking start goal _ =>
    if start = goal then none
    else some (trips ++ [(person, start_time, spec)])
  | .UsingBike start goal _ ped_speed =>
    match m.bikeFromBikeRack start.sidewalk_pos.lane with
    | none => some trips
    | some _ =>
      match goal with
      | .ParkNear b =>
        let last_lane := (m.goalPos .Bike goal).lane
        match m.bikeToSidewalk last_lane with
        | none => some trips
        | some _ =>
          if start.sidewalk_pos.lane = m.bldgSidewalkLane b then
            some (trips ++
              [(person, start_time, .JustWalking start (m.buildingSpot b) ped_speed)])
          else
            some (trips ++ [(person, start_time, spec)])
      | .Border _ _ => some (trips ++ [(person, start_time, spec)])
  | .UsingTransit _ _ _ _ _ _ => some (trips ++ [(person, start_time, spec)])

/-- `TripSpec::get_pathfinding_request`: derive the routing query for an
intent.  The outer `Option` models the panic of the `unwrap` in the
`UsingBike` arm; the inner `Option` is the request itself (`none` for
`UsingParkedCar`). -/
def get_pathfinding_request (m : Map) : TripSpec → Option (Option PathRequest)
  | .CarAppearing start_pos goal vehicle_spec _ =>
    let constraints := vehicle_spec.vehicle_type.to_constraints
    some (some ⟨start_pos, m.goalPos constraints goal, constraints⟩)
  | .UsingParkedCar _ _ _ => some none
  | .JustWalking start goal _ =>
    some (some ⟨start.sidewalk_pos, goal.sidewalk_pos, .Pedestrian⟩)
  | .UsingBike start _ _ _ =>
    match m.bikeFromBikeRack start.sidewalk_pos.lane with
    | none => none
    | some spot => some (some ⟨start.sidewalk_pos, spot.sidewalk_pos, .Pedestrian⟩)
  | .UsingTransit start _ _ stop1 _ _ =>
    some (some ⟨start.sidewalk_pos, (m.busStopSpot stop1).sidewalk_pos, .Pedestrian⟩)

/-- A person's durable identities looked up at finalize time
(`TripManager::get_person`): the pedestrian id and the optional owned car
and bike ids. -/
structure Person where
  id : Nat
  ped : Nat
  car : Option Nat
  bike : Option Nat
deriving DecidableEq, Repr

/-- Where a trip starts (`TripEndpoint`). -/
inductive TripEndpoint where
  | Bldg (b : Nat)
  | Border (i : Nat)
deriving DecidableEq, Repr

/-- One atomic movement unit of a trip (`TripLeg`). -/
inductive TripLeg where
  | Walk (ped : Nat) (speed : ℚ) (dest : SidewalkSpot)
  | Drive (vehicle : Vehicle) (goal : DrivingGoal)
  | RideBus (ped : Nat) (route : Nat) (stop : Nat)
deriving DecidableEq, Repr

/-- A registered trip: what `TripManager::new_trip` records. -/
structure Trip where
  person : Nat
  time : ℚ
  start : TripEndpoint
  legs : List TripLeg
deriving DecidableEq, Repr

/-- The scheduler command emitted per trip
(`Command::StartTrip(trip, spec, maybe_req, maybe_path)`). -/
structure Command where
  trip : Nat
  spec : TripSpec
  req : Option PathRequest
  path : Option Nat
deriving DecidableEq, Repr

/-- Modelled from the spec: `abstutil::Timer::parallelize` applies the
function to every element and recombines the outputs in original
submission order (spec sections 4.4 and 6), so it is the order-preserving
map. -/
def parallelize (f : α → β) (xs : List α) : List β := xs.map f

/-- The trip origin derived from a start spot's connection kind, shared by
the `JustWalking`, `UsingBike` and `UsingTransit` arms of `finalize`;
`none` models the `unreachable!` panic on any other kind. -/
def trip_endpoint (m : Map) (start : SidewalkSpot) : Option TripEndpoint :=
  match start.connection with
  | .Building b => some (.Bldg b)
  | .SuddenlyAppear => some (.Border (m.laneSrcI start.sidewalk_pos.lane))
  | .Border i => some (.Border i)
  | _ => none

/-- The leg-expansion core of `TripSpawner::finalize`: turn one intent,
given the person's identities, into the trip origin and ordered leg list.
`none` models the panics (`unwrap` on a missing vehicle or bike rack,
`unreachable!` on an unexpected connection kind). -/
def expand_legs (m : Map) (person : Person) : TripSpec → Option (TripEndpoint × List TripLeg)
  | .CarAppearing start_pos goal vehicle_spec ped_speed =>
    match (if vehicle_spec.vehicle_type = .Car then person.car else person.bike) with
    | none => none
    | some vid =>
      let vehicle := vehicle_spec.make vid (some person.id)
      let legs := TripLeg.Drive vehicle goal ::
        (match goal with
         | .ParkNear b => [TripLeg.Walk person.ped ped_speed (m.buildingSpot b)]
         | .Border _ _ => [])
      some (.Border (m.laneSrcI start_pos.lane), legs)
  | .UsingParkedCar start_bldg goal ped_speed =>
    some (.Bldg start_bldg,
      [TripLeg.Walk person.ped ped_speed (m.deferredParkingSpot start_bldg goal)])
  | .JustWalking start goal ped_speed =>
    (trip_endpoint m start).map fun ep =>
      (ep, [TripLeg.Walk person.ped ped_speed goal])
  | .UsingBike start goal vehicle ped_speed =>
    match m.bikeFromBikeRack start.sidewalk_pos.lane, person.bike, trip_endpoint m start with
    | some walk_to, some bid, some ep =>
      let legs := [TripLeg.Walk person.ped ped_speed walk_to,
                   TripLeg.Drive (vehicle.make bid none) goal] ++
        (match goal with
         | .ParkNear b => [TripLeg.Walk person.ped ped_speed (m.buildingSpot b)]
         | .Border _ _ => [])
      some (ep, legs)
    | _, _, _ => none
  | .UsingTransit start goal route stop1 stop2 ped_speed =>
    (trip_endpoint m start).map fun ep =>
      (ep, [TripLeg.Walk person.ped ped_speed (m.busStopSpot stop1),
            TripLeg.RideBus person.ped route stop2,
            TripLeg.Walk person.ped ped_speed goal])

/-- One routed buffer entry, as produced by the parallel phase of
`finalize`: the original tuple, the derived request, and the resolved
path. -/
abbrev Routed := Entry × Option PathRequest × Option Nat

/-- The closure mapped over the buffer in `finalize`'s parallel phase:
derive the pathfinding request and resolve it.  `none` models a panic
inside the closure. -/
def route_entry (m : Map) (e : Entry) : Option Routed :=
  match get_pathfinding_request m e.2.2 with
  | none => none
  | some req => some (e, req, req.bind m.pathfind)

/-- The sequential expansion of one routed entry inside `finalize`: look
up the person, expand the legs, register the trip (its id is `tid`) and
build the scheduler command.  `none` models any panic. -/
def finalize_entry (m : Map) (get_person : Nat → Option Person) (tid : Nat) :
    Option Routed → Option (Trip × (ℚ × Command))
  | none => none
  | some ((p, t, spec), req, path) =>
    (get_person p).bind fun person =>
      (expand_legs m person spec).map fun epl =>
        (⟨p, t, epl.1, epl.2⟩, (t, ⟨tid, spec, req, path⟩))

/-- The sequential phase of `finalize`: expand each routed entry in
submission order, handing out consecutive trip ids and pushing one
scheduler command per entry. -/
def finalize_loop (m : Map) (get_person : Nat → Option Person) :
    Nat → List (Option Routed) → Option (List Trip × List (ℚ × Command))
  | _, [] => some ([], [])
  | tid, r :: rest =>
    match finalize_entry m get_person tid r with
    | none => none
    | some (trip, cmd) =>
      match finalize_loop m get_person (tid + 1) rest with
      | none => none
      | some (ts, cs) => some (trip :: ts, cmd :: cs)

/-- `TripSpawner::finalize`: batch-route the whole buffer in parallel,
then sequentially register trips and push scheduler commands.  Returns
the registered trips and the pushed `(time, command)` list in push order;
`none` models a panic anywhere. -/
def finalize (m : Map) (get_person : Nat → Option Person) (trips0 : List Entry) :
    Option (List Trip × List (ℚ × Command)) :=
  finalize_loop m get_person 0 (parallelize (route_entry m) trips0)

/-- Buffers reachable from the empty spawner through `schedule_trip`
calls against a fixed map (claim C6's notion of a buffer produced only
through submission). -/
inductive BufferReachable (m : Map) : List Entry → Prop
  | nil : BufferReachable m []
  | step (tr tr' : List Entry) (p : Nat) (t : ℚ) (s : TripSpec) :
      BufferReachable m tr → schedule_trip m p t s tr = some tr' →
      BufferReachable m tr'

/-- A small concrete network used to evaluate the definitions on concrete
inputs: one long sidewalk lane 0, every building on lane 0, bike racks
everywhere, a pathfinder that finds no route. -/
def demoMap : Map where
  laneLength := fun _ => 100
  laneSrcI := fun l => l + 50
  bldgSidewalkLane := fun _ => 0
  buildingSpot := fun b => ⟨⟨0, 1⟩, .Building b⟩
  bikeFromBikeRack := fun l => some ⟨⟨l, 2⟩, .BikeRack⟩
  bikeToSidewalk := fun _ => some 0
  busStopSpot := fun s => ⟨⟨4, 3⟩, .BusStop s⟩
  deferredParkingSpot := fun _ _ => ⟨⟨5, 1⟩, .DeferredParkingSpot⟩
  goalPos := fun _ _ => ⟨6, 0⟩
  pathfind := fun _ => none

/-- The demo network with every lane of the given length. -/
def demoMapLen (len : ℚ) : Map := { demoMap with laneLength := fun _ => len }

/-- C1 counterexample: with car length 13/2 and a lane of length
1301/200 (strictly between the car length and car length plus
EPSILON_DIST), the input position at exactly the lane end satisfies the
Position invariant, yet `spawn_vehicle_at` returns a position whose
distance along, 1299/200, is strictly less than the car length —
contradicting the claim that the result is never closer to the lane start
than the vehicle length. -/
theorem spawn_vehicle_at_epsilon_counterexample :
    spawn_vehicle_at (demoMapLen (1301/200)) ⟨0, 1301/200⟩ false =
      some ⟨0, 1299/200⟩ ∧
    (0 : ℚ) ≤ 1301/200 ∧
    (1301/200 : ℚ) ≤ (demoMapLen (1301/200)).laneLength 0 ∧
    (1299/200 : ℚ) < MAX_CAR_LENGTH := by
  refine ⟨?_, by norm_num, le_refl _, ?_⟩
  · simp only [spawn_vehicle_at, demoMapLen, demoMap]
    norm_num [EPSILON_DIST, MAX_CAR_LENGTH, BIKE_LENGTH]
  · norm_num [MAX_CAR_LENGTH]

/-- C1 (amended): for every input position within the lane
(0 ≤ dist_along ≤ lane length), `spawn_vehicle_at` returns either none or
a position on the same lane with distance along inside [0, lane length);
that distance is at least the vehicle class length except in the single
case where the input sits exactly at the lane end and the lane is shorter
than vehicle length + EPSILON_DIST, in which case it is lane length −
EPSILON_DIST. -/
theorem spawn_vehicle_at_adjusted (m : Map) (pos : Position) (isBike : Bool)
    (h0 : 0 ≤ pos.distAlong) (hL : pos.distAlong ≤ m.laneLength pos.lane) :
    spawn_vehicle_at m pos isBike = none ∨
    ∃ p : Position, spawn_vehicle_at m pos isBike = some p ∧
      p.lane = pos.lane ∧ 0 ≤ p.distAlong ∧
      p.distAlong < m.laneLength pos.lane ∧
      ((if isBike then BIKE_LENGTH else MAX_CAR_LENGTH) ≤ p.distAlong ∨
        (pos.distAlong = m.laneLength pos.lane ∧
         m.laneLength pos.lane <
           (if isBike then BIKE_LENGTH else MAX_CAR_LENGTH) + EPSILON_DIST ∧
         p.distAlong = m.laneLength pos.lane - EPSILON_DIST)) := by
  have hε : (0 : ℚ) < EPSILON_DIST := by norm_num [EPSILON_DIST]
  have hv : EPSILON_DIST ≤ (if isBike then BIKE_LENGTH else MAX_CAR_LENGTH) := by
    cases isBike <;> norm_num [EPSILON_DIST, BIKE_LENGTH, MAX_CAR_LENGTH]
  simp only [spawn_vehicle_at]
  set v := (if isBike then BIKE_LENGTH else MAX_CAR_LENGTH) with hvdef
  split_ifs with h1 h2 h3
  · exact Or.inl rfl
  · push_neg at h1
    refine Or.inr ⟨⟨pos.lane, v⟩, rfl, rfl, ?_, ?_, Or.inl ?_⟩ <;> dsimp only
    · linarith
    · exact h1
    · exact le_rfl
  · push_neg at h1
    refine Or.inr ⟨⟨pos.lane, pos.distAlong - EPSILON_DIST⟩, rfl, rfl, ?_, ?_, ?_⟩ <;>
      dsimp only
    · rw [h3]; linarith
    · rw [h3]; linarith
    · by_cases hcase : v ≤ pos.distAlong - EPSILON_DIST
      · exact Or.inl hcase
      · push_neg at hcase
        rw [h3] at hcase
        exact Or.inr ⟨h3, by linarith, by rw [h3]⟩
  · push_neg at h2
    exact Or.inr ⟨pos, rfl, rfl, h0, lt_of_le_of_ne hL h3, Or.inl h2⟩

/-- C1 witness: the amended theorem instantiated on the demo network at
an interior position. -/
theorem spawn_vehicle_at_adjusted_witness :
    spawn_vehicle_at demoMap ⟨0, 50⟩ false = none ∨
    ∃ p : Position, spawn_vehicle_at demoMap ⟨0, 50⟩ false = some p ∧
      p.lane = (Position.mk 0 50).lane ∧ 0 ≤ p.distAlong ∧
      p.distAlong < demoMap.laneLength (Position.mk 0 50).lane ∧
      ((if false then BIKE_LENGTH else MAX_CAR_LENGTH) ≤ p.distAlong ∨
        ((Position.mk 0 50).distAlong = demoMap.laneLength (Position.mk 0 50).lane ∧
         demoMap.laneLength (Position.mk 0 50).lane <
           (if false then BIKE_LENGTH else MAX_CAR_LENGTH) + EPSILON_DIST ∧
         p.distAlong = demoMap.laneLength (Position.mk 0 50).lane - EPSILON_DIST)) :=
  spawn_vehicle_at_adjusted demoMap ⟨0, 50⟩ false (by decide) (by decide)

/-- Characterization of the panic cases of `schedule_trip` on a
`CarAppearing` intent. -/
lemma schedule_trip_car_none_iff (m : Map) (p : Nat) (t : ℚ) (start_pos : Position)
    (goal : DrivingGoal) (vs : VehicleSpec) (sp : ℚ) (trips : List Entry) :
    schedule_trip m p t (.CarAppearing start_pos goal vs sp) trips = none ↔
      (start_pos.distAlong < vs.length ∨
       m.laneLength start_pos.lane ≤ start_pos.distAlong ∨
       (∃ i el, goal = .Border i el ∧ start_pos.lane = el ∧
         start_pos.distAlong = m.laneLength el)) := by
  cases goal with
  | ParkNear b =>
    simp only [schedule_trip]
    split_ifs with h1 h2
    · exact ⟨fun _ => Or.inl h1, fun _ => rfl⟩
    · exact ⟨fun _ => Or.inr (Or.inl h2), fun _ => rfl⟩
    · refine ⟨fun h => absurd h (by simp), ?_⟩
      rintro (h | h | ⟨i, el, hg, _⟩)
      · exact absurd h h1
      · exact absurd h h2
      · exact hg.elim
  | Border bi bl =>
    simp only [schedule_trip]
    split_ifs with h1 h2 h3
    · exact ⟨fun _ => Or.inl h1, fun _ => rfl⟩
    · exact ⟨fun _ => Or.inr (Or.inl h2), fun _ => rfl⟩
    · exact ⟨fun _ => Or.inr (Or.inr ⟨bi, bl, rfl, h3.1, h3.2⟩), fun _ => rfl⟩
    · refine ⟨fun h => absurd h (by simp), ?_⟩
      rintro (h | h | ⟨i, el, hg, hlane, hdist⟩)
      · exact absurd h h1
      · exact absurd h h2
      · obtain ⟨rfl, rfl⟩ : bi = i ∧ bl = el := by
          cases hg; exact ⟨rfl, rfl⟩
        exact absurd ⟨hlane, hdist⟩ h3

/-- Characterization of the success case of `schedule_trip` on a
`CarAppearing` intent: the intent is appended unchanged and its spawn
position satisfies the feasibility bounds. -/
lemma schedule_trip_car_some (m : Map) (p : Nat) (t : ℚ) (start_pos : Position)
    (goal : DrivingGoal) (vs : VehicleSpec) (sp : ℚ) (trips trips' : List Entry)
    (h : schedule_trip m p t (.CarAppearing start_pos goal vs sp) trips = some trips') :
    trips' = trips ++ [(p, t, .CarAppearing start_pos goal vs sp)] ∧
    vs.length ≤ start_pos.distAlong ∧
    start_pos.distAlong < m.laneLength start_pos.lane := by
  cases goal with
  | ParkNear b =>
    simp only [schedule_trip] at h
    split_ifs at h with h1 h2
    push_neg at h1 h2
    cases h
    exact ⟨rfl, h1, h2⟩
  | Border bi bl =>
    simp only [schedule_trip] at h
    split_ifs at h with h1 h2 h3
    push_neg at h1 h2
    cases h
    exact ⟨rfl, h1, h2⟩

/-- C2: `schedule_trip` on a `CarAppearing` intent aborts exactly when
the spawn distance is below the vehicle length, or not strictly below the
lane length, or the goal is a border on the start lane with the start
exactly at the lane end; every accepted intent is buffered unchanged (not
clamped) and satisfies vehicle length ≤ dist along < lane length. -/
theorem schedule_trip_car_appearing_validation (m : Map) (p : Nat) (t : ℚ)
    (start_pos : Position) (goal : DrivingGoal) (vs : VehicleSpec) (sp : ℚ)
    (trips : List Entry) :
    (schedule_trip m p t (.CarAppearing start_pos goal vs sp) trips = none ↔
      (start_pos.distAlong < vs.length ∨
       m.laneLength start_pos.lane ≤ start_pos.distAlong ∨
       (∃ i el, goal = .Border i el ∧ start_pos.lane = el ∧
         start_pos.distAlong = m.laneLength el))) ∧
    (∀ trips', schedule_trip m p t (.CarAppearing start_pos goal vs sp) trips = some trips' →
      trips' = trips ++ [(p, t, .CarAppearing start_pos goal vs sp)] ∧
      vs.length ≤ start_pos.distAlong ∧
      start_pos.distAlong < m.laneLength start_pos.lane) :=
  ⟨schedule_trip_car_none_iff m p t start_pos goal vs sp trips,
   fun trips' h => schedule_trip_car_some m p t start_pos goal vs sp trips trips' h⟩

/-- C2 witness: a feasible car spawn on the demo network is accepted and
buffered unchanged with its bounds. -/
theorem schedule_trip_car_appearing_validation_witness :
    [] ++ [((3 : Nat), (0 : ℚ), TripSpec.CarAppearing ⟨0, 50⟩ (.ParkNear 1) ⟨.Car, 5⟩ 1)] =
      [] ++ [((3 : Nat), (0 : ℚ), TripSpec.CarAppearing ⟨0, 50⟩ (.ParkNear 1) ⟨.Car, 5⟩ 1)] ∧
    (5 : ℚ) ≤ (Position.mk 0 50).distAlong ∧
    (Position.mk 0 50).distAlong < demoMap.laneLength (Position.mk 0 50).lane :=
  (schedule_trip_car_appearing_validation demoMap 3 0 ⟨0, 50⟩ (.ParkNear 1)
      ⟨.Car, 5⟩ 1 []).2
    ([] ++ [(3, 0, TripSpec.CarAppearing ⟨0, 50⟩ (.ParkNear 1) ⟨.Car, 5⟩ 1)]) (by decide)

/-- C10: for a `CarAppearing` intent with a border goal, the zero-length
border-to-border abort branch is unreachable — once the spawn distance is
at least the vehicle length and strictly below the start lane's length,
the border-branch condition cannot hold — so `schedule_trip` aborts on
such intents exactly when one of the two earlier checks fires. -/
theorem schedule_trip_border_branch_unreachable (m : Map) (p : Nat) (t : ℚ)
    (start_pos : Position) (i el : Nat) (vs : VehicleSpec) (sp : ℚ)
    (trips : List Entry) :
    (¬ start_pos.distAlong < vs.length →
     ¬ m.laneLength start_pos.lane ≤ start_pos.distAlong →
     ¬ (start_pos.lane = el ∧ start_pos.distAlong = m.laneLength el)) ∧
    (schedule_trip m p t (.CarAppearing start_pos (.Border i el) vs sp) trips = none ↔
      (start_pos.distAlong < vs.length ∨
       m.laneLength start_pos.lane ≤ start_pos.distAlong)) := by
  have hunreach : ¬ start_pos.distAlong < vs.length →
      ¬ m.laneLength start_pos.lane ≤ start_pos.distAlong →
      ¬ (start_pos.lane = el ∧ start_pos.distAlong = m.laneLength el) := by
    rintro _ h2 ⟨hlane, hdist⟩
    exact h2 (by rw [hlane]; exact hdist.ge)
  refine ⟨hunreach, ?_⟩
  rw [schedule_trip_car_none_iff]
  constructor
  · rintro (h | h | ⟨i', el', hg, hlane, hdist⟩)
    · exact Or.inl h
    · exact Or.inr h
    · obtain ⟨rfl, rfl⟩ : i = i' ∧ el = el' := by cases hg; exact ⟨rfl, rfl⟩
      exact Or.inr (by rw [hlane]; exact hdist.ge)
  · rintro (h | h)
    · exact Or.inl h
    · exact Or.inr (Or.inl h)

/-- C10 witness: on the demo network a feasible border-goal car spawn is
not aborted, matching the two-check characterization. -/
theorem schedule_trip_border_branch_unreachable_witness :
    ¬ ((Position.mk 0 50).lane = 0 ∧
       (Position.mk 0 50).distAlong = demoMap.laneLength 0) :=
  (schedule_trip_border_branch_unreachable demoMap 3 0 ⟨0, 50⟩ 9 0 ⟨.Car, 5⟩ 1 []).1
    (by decide) (by decide)

/-- C4: a `UsingBike` intent aiming to park near a building whose
sidewalk lane equals the start sidewalk lane, with both bike-drop checks
passing, is buffered as a `JustWalking` intent with the identical start,
the building's sidewalk spot as goal and the same walk speed; the
original bike intent is never buffered and no abort occurs. -/
theorem schedule_trip_bike_rewrite (m : Map) (p : Nat) (t : ℚ)
    (start : SidewalkSpot) (b : Nat) (veh : VehicleSpec) (sp : ℚ)
    (trips : List Entry)
    (hrack : (m.bikeFromBikeRack start.sidewalk_pos.lane).isSome)
    (hsw : (m.bikeToSidewalk (m.goalPos .Bike (.ParkNear b)).lane).isSome)
    (hsame : start.sidewalk_pos.lane = m.bldgSidewalkLane b) :
    schedule_trip m p t (.UsingBike start (.ParkNear b) veh sp) trips =
      some (trips ++ [(p, t, .JustWalking start (m.buildingSpot b) sp)]) := by
  obtain ⟨w, hw⟩ := Option.isSome_iff_exists.mp hrack
  obtain ⟨l, hl⟩ := Option.isSome_iff_exists.mp hsw
  simp only [schedule_trip, hw, hl]
  rw [if_pos hsame]

/-- C4 witness: the rewrite on the demo network. -/
theorem schedule_trip_bike_rewrite_witness :
    schedule_trip demoMap 1 0
        (.UsingBike ⟨⟨0, 5⟩, .SuddenlyAppear⟩ (.ParkNear 2) ⟨.Bike, 2⟩ 1) [] =
      some ([] ++
        [(1, 0, .JustWalking ⟨⟨0, 5⟩, .SuddenlyAppear⟩ (demoMap.buildingSpot 2) 1)]) :=
  schedule_trip_bike_rewrite demoMap 1 0 ⟨⟨0, 5⟩, .SuddenlyAppear⟩ 2 ⟨.Bike, 2⟩ 1 []
    (by decide) (by decide) (by decide)

/-- C9: a `UsingBike` intent whose start spot is exactly the goal
building's sidewalk spot is rewritten and buffered as a `JustWalking`
intent whose start equals its goal, without aborting — although the same
`JustWalking` intent submitted directly makes `schedule_trip` abort.  The
rewrite path bypasses the identical-start/goal validation. -/
theorem bike_rewrite_bypasses_walk_validation :
    schedule_trip demoMap 0 0
        (.UsingBike ⟨⟨0, 1⟩, .Building 0⟩ (.ParkNear 0) ⟨.Bike, 2⟩ 1) [] =
      some [(0, 0, .JustWalking ⟨⟨0, 1⟩, .Building 0⟩ ⟨⟨0, 1⟩, .Building 0⟩ 1)] ∧
    schedule_trip demoMap 0 0
        (.JustWalking ⟨⟨0, 1⟩, .Building 0⟩ ⟨⟨0, 1⟩, .Building 0⟩ 1) [] = none := by
  constructor <;> decide

/-- Any entry of a buffer returned by `schedule_trip` was already in the
input buffer, or is the newly pushed entry, which — when it is a
`UsingBike` intent — has a bike-access point at its start sidewalk
lane. -/
lemma schedule_trip_mem (m : Map) (p : Nat) (t : ℚ) (s : TripSpec)
    (tr tr' : List Entry) (h : schedule_trip m p t s tr = some tr') :
    ∀ e ∈ tr', e ∈ tr ∨
      ∀ start goal veh sp, e.2.2 = TripSpec.UsingBike start goal veh sp →
        (m.bikeFromBikeRack start.sidewalk_pos.lane).isSome := by
  cases s with
  | CarAppearing pos goal vs sp =>
    obtain ⟨rfl, -, -⟩ := schedule_trip_car_some m p t pos goal vs sp tr tr' h
    intro e he
    rcases List.mem_append.mp he with he | he
    · exact Or.inl he
    · rw [List.mem_singleton] at he
      subst he
      exact Or.inr fun start goal' veh sp' heq => TripSpec.noConfusion heq
  | UsingParkedCar b g sp =>
    simp only [schedule_trip] at h
    cases h
    intro e he
    rcases List.mem_append.mp he with he | he
    · exact Or.inl he
    · rw [List.mem_singleton] at he
      subst he
      exact Or.inr fun start goal' veh sp' heq => TripSpec.noConfusion heq
  | JustWalking s1 s2 sp =>
    simp only [schedule_trip] at h
    split_ifs at h
    cases h
    intro e he
    rcases List.mem_append.mp he with he | he
    · exact Or.inl he
    · rw [List.mem_singleton] at he
      subst he
      exact Or.inr fun start goal' veh sp' heq => TripSpec.noConfusion heq
  | UsingTransit s1 s2 r st1 st2 sp =>
    simp only [schedule_trip] at h
    cases h
    intro e he
    rcases List.mem_append.mp he with he | he
    · exact Or.inl he
    · rw [List.mem_singleton] at he
      subst he
      exact Or.inr fun start goal' veh sp' heq => TripSpec.noConfusion heq
  | UsingBike start goal veh sp =>
    cases hrack : m.bikeFromBikeRack start.sidewalk_pos.lane with
    | none =>
      simp only [schedule_trip, hrack] at h
      cases h
      intro e he
      exact Or.inl he
    | some w =>
      cases goal with
      | Border i l =>
        simp only [schedule_trip, hrack] at h
        cases h
        intro e he
        rcases List.mem_append.mp he with he | he
        · exact Or.inl he
        · rw [List.mem_singleton] at he
          subst he
          refine Or.inr fun start' goal' veh' sp' heq => ?_
          obtain ⟨h1, -, -, -⟩ := TripSpec.UsingBike.inj heq
          rw [← h1, hrack]
          rfl
      | ParkNear b =>
        cases hsw : m.bikeToSidewalk (m.goalPos .Bike (.ParkNear b)).lane with
        | none =>
          simp only [schedule_trip, hrack, hsw] at h
          cases h
          intro e he
          exact Or.inl he
        | some l =>
          by_cases hsame : start.sidewalk_pos.lane = m.bldgSidewalkLane b
          · simp only [schedule_trip, hrack, hsw, if_pos hsame] at h
            cases h
            intro e he
            rcases List.mem_append.mp he with he | he
            · exact Or.inl he
            · rw [List.mem_singleton] at he
              subst he
              exact Or.inr fun start' goal' veh' sp' heq => TripSpec.noConfusion heq
          · simp only [schedule_trip, hrack, hsw, if_neg hsame] at h
            cases h
            intro e he
            rcases List.mem_append.mp he with he | he
            · exact Or.inl he
            · rw [List.mem_singleton] at he
              subst he
              refine Or.inr fun start' goal' veh' sp' heq => ?_
              obtain ⟨h1, -, -, -⟩ := TripSpec.UsingBike.inj heq
              rw [← h1, hrack]
              rfl

/-- C6: in any buffer produced only through `schedule_trip` calls against
a fixed map, every `UsingBike` entry has a bike-access point reachable
from its start sidewalk lane, so `get_pathfinding_request` does not panic
on it (and neither does the same lookup in finalize's leg expansion). -/
theorem buffered_bike_intents_have_rack (m : Map) (buf : List Entry)
    (h : BufferReachable m buf) :
    ∀ e ∈ buf, ∀ start goal veh sp, e.2.2 = TripSpec.UsingBike start goal veh sp →
      (m.bikeFromBikeRack start.sidewalk_pos.lane).isSome ∧
      get_pathfinding_request m e.2.2 ≠ none := by
  induction h with
  | nil => intro e he; exact absurd he (List.not_mem_nil e)
  | step tr tr' p t s hreach hstep ih =>
    intro e he start goal veh sp heq
    rcases schedule_trip_mem _ _ _ _ _ _ hstep e he with hmem | hnew
    · exact ih e hmem start goal veh sp heq
    · have hrack := hnew start goal veh sp heq
      refine ⟨hrack, ?_⟩
      rw [heq]
      obtain ⟨w, hw⟩ := Option.isSome_iff_exists.mp hrack
      simp [get_pathfinding_request, hw]

/-- C6 witness: a singleton buffer reached by one submission on the demo
network, evaluated at its bike entry. -/
theorem buffered_bike_intents_have_rack_witness :
    (demoMap.bikeFromBikeRack
        (SidewalkSpot.mk ⟨0, 5⟩ .SuddenlyAppear).sidewalk_pos.lane).isSome ∧
    get_pathfinding_request demoMap
        (.UsingBike ⟨⟨0, 5⟩, .SuddenlyAppear⟩ (.Border 1 2) ⟨.Bike, 2⟩ 1) ≠ none :=
  buffered_bike_intents_have_rack demoMap
    [(0, 0, .UsingBike ⟨⟨0, 5⟩, .SuddenlyAppear⟩ (.Border 1 2) ⟨.Bike, 2⟩ 1)]
    (BufferReachable.step [] [(0, 0, .UsingBike ⟨⟨0, 5⟩, .SuddenlyAppear⟩ (.Border 1 2) ⟨.Bike, 2⟩ 1)]
      0 0 (.UsingBike ⟨⟨0, 5⟩, .SuddenlyAppear⟩ (.Border 1 2) ⟨.Bike, 2⟩ 1)
      BufferReachable.nil (by decide))
    (0, 0, .UsingBike ⟨⟨0, 5⟩, .SuddenlyAppear⟩ (.Border 1 2) ⟨.Bike, 2⟩ 1)
    (List.mem_singleton.mpr rfl)
    ⟨⟨0, 5⟩, .SuddenlyAppear⟩ (.Border 1 2) ⟨.Bike, 2⟩ 1 rfl

/-- C7: `get_pathfinding_request` yields no request exactly for
`UsingParkedCar` intents; for walking, biking and transit intents it
yields a pedestrian request to, respectively, the goal sidewalk position,
the nearest bike-access point of the start sidewalk lane, and the
boarding stop's sidewalk position; for `CarAppearing` it yields a request
from the spawn position to the goal position under the vehicle type's
constraints. -/
theorem get_pathfinding_request_cases (m : Map) (s : TripSpec) :
    ((get_pathfinding_request m s = some none) ↔
      ∃ b g sp, s = .UsingParkedCar b g sp) ∧
    (∀ start goal sp, s = .JustWalking start goal sp →
      get_pathfinding_request m s =
        some (some ⟨start.sidewalk_pos, goal.sidewalk_pos, .Pedestrian⟩)) ∧
    (∀ start goal veh sp w, s = .UsingBike start goal veh sp →
      m.bikeFromBikeRack start.sidewalk_pos.lane = some w →
      get_pathfinding_request m s =
        some (some ⟨start.sidewalk_pos, w.sidewalk_pos, .Pedestrian⟩)) ∧
    (∀ start goal route stop1 stop2 sp,
      s = .UsingTransit start goal route stop1 stop2 sp →
      get_pathfinding_request m s =
        some (some ⟨start.sidewalk_pos, (m.busStopSpot stop1).sidewalk_pos,
          .Pedestrian⟩)) ∧
    (∀ start_pos goal veh sp, s = .CarAppearing start_pos goal veh sp →
      get_pathfinding_request m s =
        some (some ⟨start_pos, m.goalPos veh.vehicle_type.to_constraints goal,
          veh.vehicle_type.to_constraints⟩)) := by
  refine ⟨?_, ?_, ?_, ?_, ?_⟩
  · cases s with
    | CarAppearing a b c d => simp [get_pathfinding_request]
    | UsingParkedCar b g sp => simp [get_pathfinding_request]
    | JustWalking a b c => simp [get_pathfinding_request]
    | UsingBike start goal veh sp =>
      cases hrack : m.bikeFromBikeRack start.sidewalk_pos.lane with
      | none => simp [get_pathfinding_request, hrack]
      | some w => simp [get_pathfinding_request, hrack]
    | UsingTransit a b c d e f => simp [get_pathfinding_request]
  · rintro start goal sp rfl
    rfl
  · rintro start goal veh sp w rfl hw
    simp [get_pathfinding_request, hw]
  · rintro start goal route stop1 stop2 sp rfl
    rfl
  · rintro start_pos goal veh sp rfl
    rfl

/-- C7 witness: the walking case evaluated on the demo network. -/
theorem get_pathfinding_request_cases_witness :
    get_pathfinding_request demoMap
        (.JustWalking ⟨⟨0, 1⟩, .Building 0⟩ ⟨⟨0, 3⟩, .Building 1⟩ 1) =
      some (some ⟨(SidewalkSpot.mk ⟨0, 1⟩ (.Building 0)).sidewalk_pos,
        (SidewalkSpot.mk ⟨0, 3⟩ (.Building 1)).sidewalk_pos, .Pedestrian⟩) :=
  (get_pathfinding_request_cases demoMap
      (.JustWalking ⟨⟨0, 1⟩, .Building 0⟩ ⟨⟨0, 3⟩, .Building 1⟩ 1)).2.1
    ⟨⟨0, 1⟩, .Building 0⟩ ⟨⟨0, 3⟩, .Building 1⟩ 1 rfl

/-- Characterization of a successful `route_entry`: the entry is passed
through unchanged together with its derived request and the request's
resolution. -/
lemma route_entry_some (m : Map) (e : Entry) (r : Routed)
    (h : route_entry m e = some r) :
    ∃ req, get_pathfinding_request m e.2.2 = some req ∧
      r.1 = e ∧ r.2.1 = req ∧ r.2.2 = req.bind m.pathfind := by
  cases hreq : get_pathfinding_request m e.2.2 with
  | none =>
    unfold route_entry at h
    rw [hreq] at h
    exact Option.noConfusion h
  | some req =>
    unfold route_entry at h
    rw [hreq] at h
    have h2 := Option.some.inj h
    exact ⟨req, rfl, by rw [← h2], by rw [← h2], by rw [← h2]⟩

/-- Characterization of a successful `finalize_entry`. -/
lemma finalize_entry_some (m : Map) (gp : Nat → Option Person) (tid : Nat)
    (r : Option Routed) (trip : Trip) (cmd : ℚ × Command)
    (h : finalize_entry m gp tid r = some (trip, cmd)) :
    ∃ p t spec req path person epl,
      r = some ((p, t, spec), req, path) ∧
      gp p = some person ∧
      expand_legs m person spec = some epl ∧
      trip = ⟨p, t, epl.1, epl.2⟩ ∧
      cmd = (t, ⟨tid, spec, req, path⟩) := by
  cases r with
  | none => exact Option.noConfusion h
  | some rt =>
    obtain ⟨⟨p, t, spec⟩, req, path⟩ := rt
    simp only [finalize_entry] at h
    obtain ⟨person, hgp, h3⟩ := Option.bind_eq_some.mp h
    obtain ⟨epl, hexp, h4⟩ := Option.map_eq_some'.mp h3
    exact ⟨p, t, spec, req, path, person, epl, rfl, hgp, hexp,
      (congrArg Prod.fst h4).symm, (congrArg Prod.snd h4).symm⟩

/-- Index-wise characterization of `finalize_loop`: a success yields one
trip and one command per routed entry, in order, with consecutive trip
ids. -/
lemma finalize_loop_spec (m : Map) (gp : Nat → Option Person) :
    ∀ (l : List (Option Routed)) (tid : Nat) (ts : List Trip)
      (cs : List (ℚ × Command)),
      finalize_loop m gp tid l = some (ts, cs) →
      ts.length = l.length ∧ cs.length = l.length ∧
      ∀ i (hi : i < l.length) (ht : i < ts.length) (hc : i < cs.length),
        ∃ p t spec req path person epl,
          l.get ⟨i, hi⟩ = some ((p, t, spec), req, path) ∧
          gp p = some person ∧
          expand_legs m person spec = some epl ∧
          ts.get ⟨i, ht⟩ = ⟨p, t, epl.1, epl.2⟩ ∧
          cs.get ⟨i, hc⟩ = (t, ⟨tid + i, spec, req, path⟩) := by
  intro l
  induction l with
  | nil =>
    intro tid ts cs h
    have h2 := Option.some.inj h
    injection h2 with hts hcs
    subst hts
    subst hcs
    refine ⟨rfl, rfl, ?_⟩
    intro i hi
    exact absurd hi (Nat.not_lt_zero i)
  | cons r rest ih =>
    intro tid ts cs h
    cases hfe : finalize_entry m gp tid r with
    | none =>
      unfold finalize_loop at h
      rw [hfe] at h
      exact Option.noConfusion h
    | some tc =>
      obtain ⟨trip, cmd⟩ := tc
      cases hrec : finalize_loop m gp (tid + 1) rest with
      | none =>
        unfold finalize_loop at h
        rw [hfe, hrec] at h
        exact Option.noConfusion h
      | some tscs =>
        obtain ⟨ts', cs'⟩ := tscs
        unfold finalize_loop at h
        rw [hfe, hrec] at h
        have h2 := Option.some.inj h
        injection h2 with hts hcs
        subst hts
        subst hcs
        obtain ⟨hlt, hlc, hix⟩ := ih (tid + 1) ts' cs' hrec
        refine ⟨by simp [hlt], by simp [hlc], ?_⟩
        intro i hi ht hc
        cases i with
        | zero =>
          obtain ⟨p, t, spec, req, path, person, epl, hr, hgp, hexp, htrip, hcmd⟩ :=
            finalize_entry_some m gp tid r trip cmd hfe
          exact ⟨p, t, spec, req, path, person, epl, hr, hgp, hexp, htrip, hcmd⟩
        | succ j =>
          have hj : j < rest.length := by
            have := hi; simp only [List.length_cons] at this; omega
          have htj : j < ts'.length := by
            have := ht; simp only [List.length_cons] at this; omega
          have hcj : j < cs'.length := by
            have := hc; simp only [List.length_cons] at this; omega
          obtain ⟨p, t, spec, req, path, person, epl, hr, hgp, hexp, htrip, hcmd⟩ :=
            hix j hj htj hcj
          refine ⟨p, t, spec, req, path, person, epl, hr, hgp, hexp, htrip, ?_⟩
          have heq : tid + 1 + j = tid + (j + 1) := by omega
          rw [← heq]
          exact hcmd

/-- Characterization of `expand_legs` on a `UsingTransit` intent. -/
lemma expand_legs_transit (m : Map) (person : Person) (start goal : SidewalkSpot)
    (route stop1 stop2 : Nat) (sp : ℚ) (epl : TripEndpoint × List TripLeg)
    (h : expand_legs m person (.UsingTransit start goal route stop1 stop2 sp) =
      some epl) :
    ∃ ep, trip_endpoint m start = some ep ∧
      epl = (ep, [.Walk person.ped sp (m.busStopSpot stop1),
                  .RideBus person.ped route stop2,
                  .Walk person.ped sp goal]) := by
  simp only [expand_legs] at h
  obtain ⟨ep, hep, hepl⟩ := Option.map_eq_some'.mp h
  exact ⟨ep, hep, hepl.symm⟩

/-- C3: a successful finalize pushes exactly one scheduler command per
buffered intent, and the i-th pushed command carries the i-th buffered
intent's start time and spec, with trip ids handed out in submission
order — so commands are pushed in the original submission order. -/
theorem finalize_preserves_submission_order (m : Map) (gp : Nat → Option Person)
    (trips0 : List Entry) (ts : List Trip) (cs : List (ℚ × Command))
    (h : finalize m gp trips0 = some (ts, cs)) :
    cs.length = trips0.length ∧ ts.length = trips0.length ∧
    ∀ i (hi : i < trips0.length) (hc : i < cs.length),
      (cs.get ⟨i, hc⟩).1 = (trips0.get ⟨i, hi⟩).2.1 ∧
      (cs.get ⟨i, hc⟩).2.spec = (trips0.get ⟨i, hi⟩).2.2 ∧
      (cs.get ⟨i, hc⟩).2.trip = i := by
  unfold finalize at h
  have hlen : (parallelize (route_entry m) trips0).length = trips0.length := by
    simp [parallelize]
  obtain ⟨hlt, hlc, hix⟩ := finalize_loop_spec m gp _ 0 ts cs h
  refine ⟨hlc.trans hlen, hlt.trans hlen, ?_⟩
  intro i hi hc
  have hi' : i < (parallelize (route_entry m) trips0).length := by
    rw [hlen]; exact hi
  have ht : i < ts.length := by rw [hlt]; exact hi'
  obtain ⟨p, t, spec, req, path, person, epl, hr, hgp, hexp, htrip, hcmd⟩ :=
    hix i hi' ht hc
  have hpar : (parallelize (route_entry m) trips0).get ⟨i, hi'⟩ =
      route_entry m (trips0.get ⟨i, hi⟩) := by
    simp [parallelize]
  rw [hpar] at hr
  obtain ⟨req', hreq', h1, h2, h3⟩ := route_entry_some m _ _ hr
  refine ⟨?_, ?_, ?_⟩
  · rw [hcmd, ← h1]
  · rw [hcmd, ← h1]
  · rw [hcmd]
    simp

/-- C5: a buffered intent whose derived request resolves to no route is
not dropped by finalize: its scheduler command is still pushed, carrying
the intent, the request, and an explicit `none` route result. -/
theorem finalize_carries_no_route (m : Map) (gp : Nat → Option Person)
    (trips0 : List Entry) (ts : List Trip) (cs : List (ℚ × Command)) (i : Nat)
    (h : finalize m gp trips0 = some (ts, cs)) (hi : i < trips0.length)
    (req : Option PathRequest)
    (hreq : get_pathfinding_request m (trips0.get ⟨i, hi⟩).2.2 = some req)
    (hnoroute : req.bind m.pathfind = none) :
    cs.length = trips0.length ∧
    ∀ (hc : i < cs.length),
      (cs.get ⟨i, hc⟩).2.spec = (trips0.get ⟨i, hi⟩).2.2 ∧
      (cs.get ⟨i, hc⟩).2.req = req ∧
      (cs.get ⟨i, hc⟩).2.path = none := by
  unfold finalize at h
  have hlen : (parallelize (route_entry m) trips0).length = trips0.length := by
    simp [parallelize]
  obtain ⟨hlt, hlc, hix⟩ := finalize_loop_spec m gp _ 0 ts cs h
  refine ⟨hlc.trans hlen, ?_⟩
  intro hc
  have hi' : i < (parallelize (route_entry m) trips0).length := by
    rw [hlen]; exact hi
  have ht : i < ts.length := by rw [hlt]; exact hi'
  obtain ⟨p, t, spec, req', path, person, epl, hr, hgp, hexp, htrip, hcmd⟩ :=
    hix i hi' ht hc
  have hpar : (parallelize (route_entry m) trips0).get ⟨i, hi'⟩ =
      route_entry m (trips0.get ⟨i, hi⟩) := by
    simp [parallelize]
  rw [hpar] at hr
  obtain ⟨req'', hreq'', h1, h2, h3⟩ := route_entry_some m _ _ hr
  have hre : req'' = req := Option.some.inj (hreq''.symm.trans hreq)
  have h2a : req' = req := Eq.trans h2 hre
  have h3a : path = req.bind m.pathfind := by rw [← hre]; exact h3
  refine ⟨?_, ?_, ?_⟩
  · rw [hcmd, ← h1]
  · rw [hcmd, h2a]
  · rw [hcmd, h3a, hnoroute]

/-- C8: a buffered `UsingTransit` intent is expanded by finalize into
exactly three legs in order — walk to the boarding stop, ride the route
alighting at the second stop, walk to the final goal — with the trip
origin derived from the start spot's connection kind. -/
theorem finalize_transit_three_legs (m : Map) (gp : Nat → Option Person)
    (trips0 : List Entry) (ts : List Trip) (cs : List (ℚ × Command)) (i : Nat)
    (p : Nat) (t : ℚ) (start goal : SidewalkSpot) (route stop1 stop2 : Nat)
    (sp : ℚ) (person : Person) (ep : TripEndpoint)
    (h : finalize m gp trips0 = some (ts, cs)) (hi : i < trips0.length)
    (he : trips0.get ⟨i, hi⟩ = (p, t, .UsingTransit start goal route stop1 stop2 sp))
    (hperson : gp p = some person) (hep : trip_endpoint m start = some ep) :
    ts.length = trips0.length ∧
    ∀ (ht : i < ts.length),
      ts.get ⟨i, ht⟩ = ⟨p, t, ep,
        [.Walk person.ped sp (m.busStopSpot stop1),
         .RideBus person.ped route stop2,
         .Walk person.ped sp goal]⟩ := by
  unfold finalize at h
  have hlen : (parallelize (route_entry m) trips0).length = trips0.length := by
    simp [parallelize]
  obtain ⟨hlt, hlc, hix⟩ := finalize_loop_spec m gp _ 0 ts cs h
  refine ⟨hlt.trans hlen, ?_⟩
  intro ht
  have hi' : i < (parallelize (route_entry m) trips0).length := by
    rw [hlen]; exact hi
  have hc : i < cs.length := by rw [hlc]; exact hi'
  obtain ⟨p', t', spec', req', path', person', epl, hr, hgp, hexp, htrip, hcmd⟩ :=
    hix i hi' ht hc
  have hpar : (parallelize (route_entry m) trips0).get ⟨i, hi'⟩ =
      route_entry m (trips0.get ⟨i, hi⟩) := by
    simp [parallelize]
  rw [hpar, he] at hr
  obtain ⟨req'', hreq'', h1, h2, h3⟩ := route_entry_some m _ _ hr
  have h1' : (p', t', spec') =
      (p, t, TripSpec.UsingTransit start goal route stop1 stop2 sp) := h1
  injection h1' with ha hb
  injection hb with hb1 hb2
  subst ha
  subst hb1
  subst hb2
  have hpers : person' = person := Option.some.inj (hgp.symm.trans hperson)
  subst hpers
  obtain ⟨ep', hep', hepl⟩ :=
    expand_legs_transit m person' start goal route stop1 stop2 sp epl hexp
  have hep2 : ep' = ep := Option.some.inj (hep'.symm.trans hep)
  subst hep2
  rw [htrip, hepl]

/-- A demo person registry: everyone exists, with a car and a bike. -/
def gpDemo : Nat → Option Person := fun n => some ⟨n, 100 + n, some 10, some 11⟩

/-- A demo sidewalk spot at building 0. -/
def demoA : SidewalkSpot := ⟨⟨0, 1⟩, .Building 0⟩

/-- A demo sidewalk spot at building 1. -/
def demoB : SidewalkSpot := ⟨⟨0, 3⟩, .Building 1⟩

/-- A demo buffer: one walking intent and one transit intent. -/
def demoTrips : List Entry :=
  [(0, 0, .JustWalking demoA demoB 1),
   (1, 2, .UsingTransit demoA demoB 7 8 9 1)]

/-- The trips that finalize registers for `demoTrips` on the demo
network. -/
def demoTs : List Trip :=
  [⟨0, 0, .Bldg 0, [.Walk 100 1 demoB]⟩,
   ⟨1, 2, .Bldg 0,
     [.Walk 101 1 ⟨⟨4, 3⟩, .BusStop 8⟩, .RideBus 101 7 9, .Walk 101 1 demoB]⟩]

/-- The scheduler commands that finalize pushes for `demoTrips` on the
demo network. -/
def demoCs : List (ℚ × Command) :=
  [(0, ⟨0, .JustWalking demoA demoB 1,
      some ⟨⟨0, 1⟩, ⟨0, 3⟩, .Pedestrian⟩, none⟩),
   (2, ⟨1, .UsingTransit demoA demoB 7 8 9 1,
      some ⟨⟨0, 1⟩, ⟨4, 3⟩, .Pedestrian⟩, none⟩)]

/-- C3 witness: on the demo buffer, the second pushed command carries the
second submitted intent and trip id 1. -/
theorem finalize_preserves_submission_order_witness :
    (demoCs.get ⟨1, by decide⟩).1 = (demoTrips.get ⟨1, by decide⟩).2.1 ∧
    (demoCs.get ⟨1, by decide⟩).2.spec = (demoTrips.get ⟨1, by decide⟩).2.2 ∧
    (demoCs.get ⟨1, by decide⟩).2.trip = 1 :=
  (finalize_preserves_submission_order demoMap gpDemo demoTrips demoTs demoCs
      (by decide)).2.2 1 (by decide) (by decide)

/-- C5 witness: the demo pathfinder finds no route, yet the walking
intent's command is pushed with its request and an explicit `none`
path. -/
theorem finalize_carries_no_route_witness :
    (demoCs.get ⟨0, by decide⟩).2.spec = (demoTrips.get ⟨0, by decide⟩).2.2 ∧
    (demoCs.get ⟨0, by decide⟩).2.req =
      some ⟨⟨0, 1⟩, ⟨0, 3⟩, .Pedestrian⟩ ∧
    (demoCs.get ⟨0, by decide⟩).2.path = none :=
  (finalize_carries_no_route demoMap gpDemo demoTrips demoTs demoCs 0
      (by decide) (by decide) (some ⟨⟨0, 1⟩, ⟨0, 3⟩, .Pedestrian⟩)
      (by decide) (by decide)).2 (by decide)

/-- C8 witness: the demo transit intent is expanded into the three legs
walk, ride bus, walk. -/
theorem finalize_transit_three_legs_witness :
    demoTs.get ⟨1, by decide⟩ =
      ⟨1, 2, .Bldg 0,
        [.Walk (Person.mk 1 101 (some 10) (some 11)).ped 1 (demoMap.busStopSpot 8),
         .RideBus (Person.mk 1 101 (some 10) (some 11)).ped 7 9,
         .Walk (Person.mk 1 101 (some 10) (some 11)).ped 1 demoB]⟩ :=
  (finalize_transit_three_legs demoMap gpDemo demoTrips demoTs demoCs 1
      1 2 demoA demoB 7 8 9 1 ⟨1, 101, some 10, some 11⟩ (.Bldg 0)
      (by decide) (by decide) (by decide) (by decide) (by decide)).2 (by decide)

end Spawner
